import Mathlib

/-!
Shallow embedding of the Excel extract-and-split tool (two source variants:
`streamlit_app.py` at top level, and the CLI variant `extract_and_split_template.py`
in namespace `Tmpl`).  Cells read from a spreadsheet with `dtype=str` are either a
string or missing (pandas `NaN`), modelled as `Option String`; `astype(str)` turns a
missing cell into the literal string "nan", exactly as pandas does.
-/

set_option maxHeartbeats 1000000

/-- Python `str.strip()` on a list of characters: drop whitespace from both ends. -/
def stripList (l : List Char) : List Char :=
  (((l.dropWhile Char.isWhitespace).reverse.dropWhile Char.isWhitespace)).reverse

/-- Python `str.strip()` at the `String` level. -/
def pyStrip (s : String) : String :=
  ⟨stripList s.data⟩

/-- Value of an ASCII digit character. -/
def digitVal (c : Char) : Nat :=
  c.toNat - 48

/-- Embedding of `parse_gender` (identical in both variants): the second-to-last
character decides, odd digit is male, even digit is female, anything else is "". -/
def parse_gender (id_number : String) : String :=
  if id_number.data.length < 2 then ""
  else
    match id_number.data.get? (id_number.data.length - 2) with
    | some c => if c.isDigit then (if digitVal c % 2 = 1 then "男" else "女") else ""
    | none => ""

/-- Matcher for the regex `\d{15}` (full match). -/
def digits15 (l : List Char) : Bool :=
  l.length == 15 && l.all Char.isDigit

/-- Tail character class `[\dXx]` of the national-id regex. -/
def isIdTail (c : Char) : Bool :=
  c.isDigit || c == 'X' || c == 'x'

/-- Matcher for the regex `\d{17}[\dXx]` (full match). -/
def digits17X (l : List Char) : Bool :=
  l.length == 18 && (l.take 17).all Char.isDigit && (l.drop 17).all isIdTail

/-- Matcher for the regex `[A-Za-z][0-9]{7,8}` (full match). -/
def matchPassport (l : List Char) : Bool :=
  match l with
  | c :: rest => c.isAlpha && ((rest.length == 7 || rest.length == 8) && rest.all Char.isDigit)
  | [] => false

/-- Head character class `[HMhm]` of the travel-permit regex. -/
def hmHead (c : Char) : Bool :=
  c == 'H' || c == 'M' || c == 'h' || c == 'm'

/-- Matcher for the regex `[HMhm][0-9]{7,9}` (full match). -/
def matchTravelHM (l : List Char) : Bool :=
  match l with
  | c :: rest =>
      hmHead c && ((7 ≤ rest.length && rest.length ≤ 9) && rest.all Char.isDigit)
  | [] => false

/-- Python `str.isdigit()` for ASCII content: nonempty and all digits. -/
def pyIsdigit (l : List Char) : Bool :=
  !l.isEmpty && l.all Char.isDigit

/-- Matcher for the second travel-permit rule: all-digit string of length 8, 9 or 10. -/
def matchTravelDigits (l : List Char) : Bool :=
  pyIsdigit l && (l.length == 8 || l.length == 9 || l.length == 10)

/-- Embedding of `parse_doc_type` (identical in both variants): strip the input,
then test national id, passport and travel permit in this order. -/
def parse_doc_type (id_number : String) : String :=
  let s := stripList id_number.data
  if digits15 s || digits17X s then "身份证"
  else if matchPassport s then "护照"
  else if matchTravelHM s || matchTravelDigits s then "港澳台通行证"
  else ""

/-- Matcher for the regex `^1[3-9]\d{9}$`: an 11-digit phone number. -/
def matchPhone (s : String) : Bool :=
  match s.data with
  | '1' :: c :: rest => ('3' ≤ c && c ≤ '9') && (rest.length == 9 && rest.all Char.isDigit)
  | _ => false

/-- Character class `[一-龥]` of CJK ideographs. -/
def isCJK (c : Char) : Bool :=
  0x4e00 ≤ c.toNat && c.toNat ≤ 0x9fa5

/-- Matcher for the regex `^[一-龥]{2,4}$`: 2 to 4 CJK ideographs. -/
def matchCJKName (s : String) : Bool :=
  s.data.all isCJK && (2 ≤ s.data.length && s.data.length ≤ 4)

/-- Matcher for the streamlit identifier fallback regex `^\d{15}$|^\d{17}[\dXx]$`. -/
def matchIdApp (s : String) : Bool :=
  digits15 s.data || digits17X s.data

/-- Matcher for the CLI-variant identifier fallback regex `^\d{17}[\dXx]$`. -/
def matchIdTmpl (s : String) : Bool :=
  digits17X s.data

/-- A pandas `DataFrame` read with `dtype=str`: named columns of optional strings
(`none` is a missing cell, pandas `NaN`), plus the row count of its index. -/
structure DataFrame where
  nrows : Nat
  cols : List (String × List (Option String))
  deriving DecidableEq, Repr

/-- Well-formedness: every column holds one cell per row of the index. -/
def DataFrame.WF (df : DataFrame) : Prop :=
  ∀ c ∈ df.cols, c.2.length = df.nrows

instance (df : DataFrame) : Decidable df.WF := by
  unfold DataFrame.WF; infer_instance

/-- Ordered column names (`df.columns`). -/
def colNames (df : DataFrame) : List String :=
  df.cols.map Prod.fst

/-- Column lookup `df[name]`, first match, `none` if absent. -/
def getCol? (df : DataFrame) (name : String) : Option (List (Option String)) :=
  (df.cols.find? (fun c => c.1 == name)).map Prod.snd

/-- Column lookup defaulting to the empty column. -/
def getCol (df : DataFrame) (name : String) : List (Option String) :=
  (getCol? df name).getD []

/-- Pandas `series.astype(str)` on a `dtype=str` column: strings unchanged and a
missing cell (`NaN`) becomes the literal string "nan". -/
def astypeStr (cells : List (Option String)) : List String :=
  cells.map (fun o => o.getD "nan")

/-- Pandas `series.dropna().astype(str)` on a `dtype=str` column. -/
def dropnaStr (cells : List (Option String)) : List String :=
  cells.filterMap (fun o => o)

/-- One column qualifies in `detect_column_by_pattern`: it has at least one
non-missing value and the fraction of non-missing values matching the pattern
reaches the threshold. -/
def colQualifies (pat : String → Bool) (threshold : ℚ) (cells : List (Option String)) : Bool :=
  let s := dropnaStr cells
  if s.length = 0 then false
  else decide (threshold ≤ Rat.divInt (s.countP pat) (s.length))

/-- Scan of `detect_column_by_pattern` over the column list. -/
def detectGo (pat : String → Bool) (threshold : ℚ) :
    List (String × List (Option String)) → Option String
  | [] => none
  | c :: rest => if colQualifies pat threshold c.2 then some c.1 else detectGo pat threshold rest

/-- Embedding of `detect_column_by_pattern` (identical in both variants): return the
first column, in native order, whose non-missing values match the pattern at a
fraction reaching the threshold; skip columns with no non-missing value. -/
def detect_column_by_pattern (df : DataFrame) (pat : String → Bool) (threshold : ℚ) :
    Option String :=
  detectGo pat threshold df.cols

/-- Name-based resolution: the series for the first alias present among the columns
(`astype(str)`), else a series of empty strings of the index length. -/
def seriesFor (df : DataFrame) (aliases : List String) : List String :=
  match aliases.find? (fun a => df.cols.any (fun c => c.1 == a)) with
  | some a => astypeStr (getCol df a)
  | none => List.replicate df.nrows ""

/-- Pattern fallback applied to a resolved series: when every value is the empty
string, look for a column by pattern (threshold 0.5) and, when one is found and its
name is truthy (non-empty), take that column instead. -/
def withFallback (df : DataFrame) (cur : List String) (pat : String → Bool) : List String :=
  if cur.all (fun v => v == "") then
    match detect_column_by_pattern df pat (Rat.divInt 1 2) with
    | some c => if c == "" then cur else astypeStr (getCol df c)
    | none => cur
  else cur

/-- Embedding of `df.reindex(columns=cols_order, fill_value='')`, the body of
`reorder_columns`: emit exactly the requested columns in the requested order,
filling absent ones with empty strings. -/
def reorder_columns (df : DataFrame) (cols_order : List String) : DataFrame :=
  ⟨df.nrows,
    cols_order.map (fun n =>
      (n, (getCol? df n).getD (List.replicate df.nrows (some ""))))⟩

/-- A row of the canonical table produced by the streamlit `extract_fields`:
columns 姓名, 证件号, 手机号, 所属组织/部门, 体检卡号, 证件类型, 性别. -/
structure Record where
  rname : String
  idNum : String
  phone : String
  org : String
  card : String
  docType : String
  gender : String
  deriving DecidableEq, Repr

/-- Row-wise view of the column-wise canonical table: zip the seven series. -/
def zipRecords : List String → List String → List String → List String → List String →
    List String → List String → List Record
  | a :: as, b :: bs, c :: cs, d :: ds, e :: es, f :: fs, g :: gs =>
      ⟨a, b, c, d, e, f, g⟩ :: zipRecords as bs cs ds es fs gs
  | _, _, _, _, _, _, _ => []

/-- Alias table of the streamlit `extract_fields` for 姓名. -/
def nameAliases : List String := ["姓名", "name", "Name", "参检人"]

/-- Alias table of the streamlit `extract_fields` for 证件号. -/
def idAliases : List String := ["证件号", "身份证号", "身份证号码", "IDNumber"]

/-- Alias table of the streamlit `extract_fields` for 手机号. -/
def phoneAliases : List String := ["手机号", "电话", "电话号码", "mobile", "Mobile"]

/-- Alias table of the streamlit `extract_fields` for 所属组织/部门. -/
def orgAliases : List String := ["所属组织/部门", "部门", "组织", "组织/部门", "单位", "单位或就业形态"]

/-- Alias table of the streamlit `extract_fields` for 体检卡号. -/
def cardAliases : List String := ["体检卡号", "卡号"]

/-- Step 1 of the streamlit `extract_fields`: drop every source column whose
stripped name is 性别. -/
def dropGenderCols (df : DataFrame) : DataFrame :=
  ⟨df.nrows, df.cols.filter (fun c => !(pyStrip c.1 == "性别"))⟩

/-- Resolved 姓名 series of the streamlit `extract_fields` (name aliases, then CJK
pattern fallback). -/
def resolvedName (df : DataFrame) : List String :=
  withFallback df (seriesFor df nameAliases) matchCJKName

/-- Resolved 证件号 series of the streamlit `extract_fields` (name aliases, then the
national-id pattern fallback). -/
def resolvedId (df : DataFrame) : List String :=
  withFallback df (seriesFor df idAliases) matchIdApp

/-- Resolved 手机号 series of the streamlit `extract_fields` (name aliases, then the
phone pattern fallback). -/
def resolvedPhone (df : DataFrame) : List String :=
  withFallback df (seriesFor df phoneAliases) matchPhone

/-- Embedding of the streamlit `extract_fields`: drop pre-existing 性别 columns,
resolve the five named fields (three of them with pattern fallback), then derive
证件类型 and 性别 from the resolved 证件号 series. -/
def extract_fields (df0 : DataFrame) : List Record :=
  let df := dropGenderCols df0
  zipRecords (resolvedName df) (resolvedId df) (resolvedPhone df)
    (seriesFor df orgAliases) (seriesFor df cardAliases)
    ((resolvedId df).map parse_doc_type) ((resolvedId df).map parse_gender)

/-- Partition step of the streamlit main flow:
`df_all[df_all['性别'] == '男']` and `df_all[df_all['性别'] == '女']`. -/
def partitionByGender (t : List Record) : List Record × List Record :=
  (t.filter (fun r => r.gender == "男"), t.filter (fun r => r.gender == "女"))

namespace Tmpl

/-- A row of the canonical table produced by the CLI-variant `extract_fields`:
columns 姓名, 证件号, 手机号, 证件类型, 性别. -/
structure Record where
  rname : String
  idNum : String
  phone : String
  docType : String
  gender : String
  deriving DecidableEq, Repr

/-- Row-wise view of the CLI-variant canonical table: zip the five series. -/
def zipRecords : List String → List String → List String → List String →
    List String → List Record
  | a :: as, b :: bs, c :: cs, d :: ds, e :: es =>
      ⟨a, b, c, d, e⟩ :: zipRecords as bs cs ds es
  | _, _, _, _, _ => []

/-- Alias table of the CLI-variant `extract_fields` for 姓名. -/
def nameAliases : List String := ["姓名", "name", "Name", "参检人", "姓名(全称)"]

/-- Alias table of the CLI-variant `extract_fields` for 证件号. -/
def idAliases : List String := ["证件号", "身份证号", "IDNumber"]

/-- Alias table of the CLI-variant `extract_fields` for 手机号. -/
def phoneAliases : List String := ["手机号", "电话", "mobile", "Mobile"]

/-- Resolved 姓名 series of the CLI-variant `extract_fields`. -/
def resolvedName (df : DataFrame) : List String :=
  withFallback df (seriesFor df nameAliases) matchCJKName

/-- Resolved 证件号 series of the CLI-variant `extract_fields` (note the fallback
pattern has no 15-digit branch here). -/
def resolvedId (df : DataFrame) : List String :=
  withFallback df (seriesFor df idAliases) matchIdTmpl

/-- Resolved 手机号 series of the CLI-variant `extract_fields`. -/
def resolvedPhone (df : DataFrame) : List String :=
  withFallback df (seriesFor df phoneAliases) matchPhone

/-- Embedding of the CLI-variant `extract_fields`: resolve 姓名, 证件号 and 手机号
(no 性别 column is dropped first), then derive 证件类型 and 性别 from the resolved
证件号 series. -/
def extract_fields (df : DataFrame) : List Record :=
  zipRecords (resolvedName df) (resolvedId df) (resolvedPhone df)
    ((resolvedId df).map parse_doc_type) ((resolvedId df).map parse_gender)

end Tmpl


/-- Spec-side characterization (from the words of the specification) of the
IdentifierNumber fallback pattern: exactly 17 digits followed by one character in
0-9, X, x. -/
def specIdFallback (s : String) : Prop :=
  ∃ ds c, s.data = ds ++ [c] ∧ ds.length = 17 ∧ (∀ x ∈ ds, x.isDigit = true) ∧
    (c.isDigit = true ∨ c = 'X' ∨ c = 'x')

/-- Spec-side characterization of a string of exactly 15 digits. -/
def specDigits15 (s : String) : Prop :=
  s.data.length = 15 ∧ ∀ x ∈ s.data, x.isDigit = true

/-- Two source tables agree on everything except the cell contents of columns whose
stripped name is 性别: same row count, same column names in the same order, and
equal cells on every column not named 性别. -/
def agreeExceptGender (df1 df2 : DataFrame) : Bool :=
  df1.nrows == df2.nrows && colNames df1 == colNames df2 &&
    (df1.cols.zip df2.cols).all
      (fun p => (pyStrip p.1.1 == "性别") || p.1.2 == p.2.2)

/-- Concrete table whose only difference from `dfGenderB` is the 性别 column. -/
def dfGenderA : DataFrame :=
  ⟨1, [("备注", [some "abc"]), ("性别", [some "王某"])]⟩

/-- Concrete table whose only difference from `dfGenderA` is the 性别 column. -/
def dfGenderB : DataFrame :=
  ⟨1, [("备注", [some "abc"]), ("性别", [some "ab"])]⟩

/-- Concrete table with a 证件号 column whose second cell is missing. -/
def dfMissingCell : DataFrame :=
  ⟨2, [("证件号", [some "110101199003077758", none])]⟩

/-- Concrete table whose 证件号 column is entirely missing while another column
holds valid identifiers. -/
def dfAllMissing : DataFrame :=
  ⟨1, [("证件号", [none]), ("编号", [some "11010119900307775X"])]⟩

/-! ### Character-level helper lemmas -/

theorem toNat_bounds_of_isDigit {c : Char} (h : c.isDigit = true) :
    48 ≤ c.val.toNat ∧ c.val.toNat ≤ 57 := by
  simp only [Char.isDigit, Bool.and_eq_true, decide_eq_true_eq] at h
  obtain ⟨h1, h2⟩ := h
  have g1 : (48 : UInt32).toNat ≤ c.val.toNat := h1
  have g2 : c.val.toNat ≤ (57 : UInt32).toNat := h2
  exact ⟨g1, g2⟩

theorem isAlpha_false_of_isDigit {c : Char} (h : c.isDigit = true) : c.isAlpha = false := by
  obtain ⟨h1, h2⟩ := toNat_bounds_of_isDigit h
  cases ha : c.isAlpha
  · rfl
  · exfalso
    simp only [Char.isAlpha, Char.isUpper, Char.isLower, Bool.or_eq_true,
      Bool.and_eq_true, decide_eq_true_eq] at ha
    rcases ha with ⟨hu, -⟩ | ⟨hu, -⟩
    · have g : (65 : UInt32).toNat ≤ c.val.toNat := hu
      have e : (65 : UInt32).toNat = 65 := rfl
      omega
    · have g : (97 : UInt32).toNat ≤ c.val.toNat := hu
      have e : (97 : UInt32).toNat = 97 := rfl
      omega

theorem isWhitespace_false_of_isDigit {c : Char} (h : c.isDigit = true) :
    c.isWhitespace = false := by
  cases hw : c.isWhitespace
  · rfl
  · exfalso
    simp only [Char.isWhitespace, Bool.or_eq_true, decide_eq_true_eq] at hw
    rcases hw with ((rfl | rfl) | rfl) | rfl <;> exact absurd h (by decide)

theorem hmHead_cases {c : Char} (h : hmHead c = true) :
    c = 'H' ∨ c = 'M' ∨ c = 'h' ∨ c = 'm' := by
  have h2 : ((c = 'H' ∨ c = 'M') ∨ c = 'h') ∨ c = 'm' := by simpa [hmHead] using h
  tauto

theorem hmHead_false_of_isDigit {c : Char} (h : c.isDigit = true) : hmHead c = false := by
  cases hh : hmHead c
  · rfl
  · exfalso
    rcases hmHead_cases hh with rfl | rfl | rfl | rfl <;> exact absurd h (by decide)

/-! ### Strip helper lemmas -/

theorem dropWhile_eq_self_of_all {α : Type} (p : α → Bool) (l : List α)
    (h : ∀ c ∈ l, p c = false) : l.dropWhile p = l := by
  cases l with
  | nil => rfl
  | cons a t => simp [List.dropWhile_cons, h a (List.mem_cons_self a t)]

theorem dropWhile_append_all {α : Type} (p : α → Bool) (l₁ l₂ : List α)
    (h : ∀ c ∈ l₁, p c = true) : (l₁ ++ l₂).dropWhile p = l₂.dropWhile p := by
  induction l₁ with
  | nil => rfl
  | cons a t ih =>
      simp only [List.cons_append, List.dropWhile_cons, h a (List.mem_cons_self a t), if_true]
      exact ih (fun c hc => h c (List.mem_cons_of_mem a hc))

theorem dropWhile_append_of_ne_nil {α : Type} (p : α → Bool) (l₁ l₂ : List α)
    (h : l₁.dropWhile p ≠ []) : (l₁ ++ l₂).dropWhile p = l₁.dropWhile p ++ l₂ := by
  induction l₁ with
  | nil => exact absurd rfl h
  | cons a t ih =>
      by_cases hp : p a = true
      · simp only [List.cons_append, List.dropWhile_cons, hp, if_true]
        simp only [List.dropWhile_cons, hp, if_true] at h
        exact ih h
      · simp only [List.cons_append, List.dropWhile_cons, hp]
        simp

theorem stripList_eq_self (l : List Char) (h : ∀ c ∈ l, c.isWhitespace = false) :
    stripList l = l := by
  unfold stripList
  rw [dropWhile_eq_self_of_all _ _ h,
    dropWhile_eq_self_of_all _ _ (fun c hc => h c (List.mem_reverse.mp hc)),
    List.reverse_reverse]

theorem stripList_pad (pre l post : List Char)
    (hpre : ∀ c ∈ pre, c.isWhitespace = true) (hpost : ∀ c ∈ post, c.isWhitespace = true) :
    stripList (pre ++ l ++ post) = stripList l := by
  unfold stripList
  rw [List.append_assoc, dropWhile_append_all _ pre _ hpre]
  by_cases hD : l.dropWhile Char.isWhitespace = []
  · have hl : ∀ x ∈ l, Char.isWhitespace x = true := List.dropWhile_eq_nil_iff.mp hD
    have h2 : (l ++ post).dropWhile Char.isWhitespace = [] := by
      apply List.dropWhile_eq_nil_iff.mpr
      intro x hx
      rcases List.mem_append.mp hx with hx | hx
      · exact hl x hx
      · exact hpost x hx
    rw [h2, hD]
  · rw [dropWhile_append_of_ne_nil _ _ _ hD, List.reverse_append,
      dropWhile_append_all _ _ _ (fun c hc => hpost c (List.mem_reverse.mp hc))]

theorem parse_doc_type_pad (s : String) (pre post : List Char)
    (hpre : ∀ c ∈ pre, c.isWhitespace = true) (hpost : ∀ c ∈ post, c.isWhitespace = true) :
    parse_doc_type ⟨pre ++ s.data ++ post⟩ = parse_doc_type s := by
  unfold parse_doc_type
  rw [show (String.mk (pre ++ s.data ++ post)).data = pre ++ s.data ++ post from rfl,
    stripList_pad pre s.data post hpre hpost]

/-! ### General facts about `parse_doc_type` on travel-permit-shaped inputs -/

theorem parse_doc_type_hm (s : String) (c : Char) (rest : List Char)
    (hdata : s.data = c :: rest) (hm : hmHead c = true)
    (hd : rest.all Char.isDigit = true) (h7 : 7 ≤ rest.length) (h9 : rest.length ≤ 9) :
    parse_doc_type s = (if rest.length = 9 then "港澳台通行证" else "护照") := by
  have hdall : ∀ x ∈ rest, x.isDigit = true := by simpa [List.all_eq_true] using hd
  have hno : ∀ x ∈ c :: rest, x.isWhitespace = false := by
    intro x hx
    rcases List.mem_cons.mp hx with rfl | hx'
    · rcases hmHead_cases hm with rfl | rfl | rfl | rfl <;> decide
    · exact isWhitespace_false_of_isDigit (hdall x hx')
  have halpha : c.isAlpha = true := by
    rcases hmHead_cases hm with rfl | rfl | rfl | rfl <;> decide
  unfold parse_doc_type
  rw [hdata, stripList_eq_self _ hno]
  have e15 : digits15 (c :: rest) = false := by
    simp only [digits15, List.length_cons, Bool.and_eq_false_iff]
    left
    simp only [beq_eq_false_iff_ne]
    omega
  have e17 : digits17X (c :: rest) = false := by
    simp only [digits17X, List.length_cons, Bool.and_eq_false_iff]
    left
    left
    simp only [beq_eq_false_iff_ne]
    omega
  by_cases h9eq : rest.length = 9
  · have ep : matchPassport (c :: rest) = false := by
      simp [matchPassport, h9eq]
    have et : matchTravelHM (c :: rest) = true := by
      simp [matchTravelHM, hm, hd, h9eq]
    simp [e15, e17, ep, et, h9eq]
  · have hlen78 : rest.length = 7 ∨ rest.length = 8 := by omega
    have ep : matchPassport (c :: rest) = true := by
      rcases hlen78 with h | h <;> simp [matchPassport, halpha, hd, h]
    simp [e15, e17, ep, h9eq]

theorem parse_doc_type_alldigit (s : String) (hne : s.data ≠ [])
    (hd : s.data.all Char.isDigit = true)
    (hlen : s.data.length = 8 ∨ s.data.length = 9 ∨ s.data.length = 10) :
    parse_doc_type s = "港澳台通行证" := by
  have hdall : ∀ x ∈ s.data, x.isDigit = true := by simpa [List.all_eq_true] using hd
  have hno : ∀ x ∈ s.data, x.isWhitespace = false :=
    fun x hx => isWhitespace_false_of_isDigit (hdall x hx)
  obtain ⟨c, rest, hcons⟩ := List.exists_cons_of_ne_nil hne
  have hcdig : c.isDigit = true := hdall c (by rw [hcons]; exact List.mem_cons_self c rest)
  unfold parse_doc_type
  rw [stripList_eq_self _ hno]
  have e15 : digits15 s.data = false := by
    simp only [digits15, Bool.and_eq_false_iff]
    left
    simp only [beq_eq_false_iff_ne]
    omega
  have e17 : digits17X s.data = false := by
    simp only [digits17X, Bool.and_eq_false_iff]
    left
    left
    simp only [beq_eq_false_iff_ne]
    omega
  have ep : matchPassport s.data = false := by
    rw [hcons]
    simp [matchPassport, isAlpha_false_of_isDigit hcdig]
  have et : matchTravelDigits s.data = true := by
    have hne' : s.data.isEmpty = false := by
      rw [hcons]; rfl
    rcases hlen with h | h | h <;> simp [matchTravelDigits, pyIsdigit, hne', hd, h]
  simp [e15, e17, ep, et]

/-- Claim C1 (amended): `parse_doc_type` checks national id, then passport, then
travel permit, first match winning; "110101199003077758" is 身份证, "G12345678" is
护照, "abc" is unknown; a string of one `[HMhm]` character followed by exactly 9
digits is 港澳台通行证, but with 7 or 8 digits the passport rule fires first and the
result is 护照 (in particular for "H1234567"); every all-digit string of length 8, 9
or 10 is 港澳台通行证. -/
theorem claim_C1_theorem :
    parse_doc_type "110101199003077758" = "身份证" ∧
    parse_doc_type "G12345678" = "护照" ∧
    parse_doc_type "abc" = "" ∧
    parse_doc_type "H1234567" = "护照" ∧
    (∀ (s : String) (c : Char) (rest : List Char), s.data = c :: rest → hmHead c = true →
      rest.all Char.isDigit = true → rest.length = 9 → parse_doc_type s = "港澳台通行证") ∧
    (∀ (s : String) (c : Char) (rest : List Char), s.data = c :: rest → hmHead c = true →
      rest.all Char.isDigit = true → (rest.length = 7 ∨ rest.length = 8) →
      parse_doc_type s = "护照") ∧
    (∀ s : String, s.data ≠ [] → s.data.all Char.isDigit = true →
      (s.data.length = 8 ∨ s.data.length = 9 ∨ s.data.length = 10) →
      parse_doc_type s = "港澳台通行证") := by
  refine ⟨by decide, by decide, by decide, by decide, ?_, ?_, parse_doc_type_alldigit⟩
  · intro s c rest hdata hm hd h9
    rw [parse_doc_type_hm s c rest hdata hm hd (by omega) (by omega)]
    simp [h9]
  · intro s c rest hdata hm hd h78
    rw [parse_doc_type_hm s c rest hdata hm hd (by omega) (by omega)]
    have : rest.length ≠ 9 := by omega
    simp [this]

/-- Claim C1 counterexample: the claim says every `[HMhm]` head followed by 7 to 9
digits gets the travel-permit label, but "H1234567" matches the passport rule
first and gets 护照. -/
theorem claim_C1_counterexample :
    parse_doc_type "H1234567" = "护照" ∧ parse_doc_type "H1234567" ≠ "港澳台通行证" := by
  constructor <;> decide

/-- Witness instantiating the general conjuncts of the amended claim C1. -/
theorem claim_C1_witness :
    parse_doc_type "M123456789" = "港澳台通行证" ∧ parse_doc_type "M1234567" = "护照" ∧
      parse_doc_type "0123456789" = "港澳台通行证" :=
  ⟨claim_C1_theorem.2.2.2.2.1 "M123456789" 'M' "123456789".data (by decide) (by decide)
      (by decide) (by decide),
   claim_C1_theorem.2.2.2.2.2.1 "M1234567" 'M' "1234567".data (by decide) (by decide)
      (by decide) (Or.inl (by decide)),
   claim_C1_theorem.2.2.2.2.2.2 "0123456789" (by decide) (by decide)
      (Or.inr (Or.inr (by decide)))⟩

/-- Claim C2: `parse_gender` returns the empty label when the input has fewer than
2 characters or its second-to-last character is not a decimal digit; otherwise an
odd digit gives 男 and an even digit gives 女; in particular
"110101199003077758" is 男 and "110101199003071728" is 女. -/
theorem claim_C2_theorem :
    (∀ s : String, s.data.length < 2 → parse_gender s = "") ∧
    (∀ (s : String) (c : Char), s.data.get? (s.data.length - 2) = some c →
      c.isDigit = false → parse_gender s = "") ∧
    (∀ (s : String) (c : Char), 2 ≤ s.data.length →
      s.data.get? (s.data.length - 2) = some c → c.isDigit = true →
      parse_gender s = (if digitVal c % 2 = 1 then "男" else "女")) ∧
    parse_gender "110101199003077758" = "男" ∧
    parse_gender "110101199003071728" = "女" := by
  refine ⟨?_, ?_, ?_, by decide, by decide⟩
  · intro s h
    simp only [parse_gender]
    rw [if_pos h]
  · intro s c hc hd
    simp only [parse_gender]
    by_cases hlen : s.data.length < 2
    · rw [if_pos hlen]
    · rw [if_neg hlen, hc]
      simp [hd]
  · intro s c h2 hc hd
    simp only [parse_gender]
    rw [if_neg (by omega), hc]
    simp [hd]

/-- Witness instantiating claim C2: a 1-character string and a string whose
second-to-last character is the non-digit 'a' both resolve to the empty label, and
an even second-to-last digit resolves to 女. -/
theorem claim_C2_witness :
    parse_gender "7" = "" ∧ parse_gender "1a7" = "" ∧ parse_gender "1127" = "女" :=
  ⟨claim_C2_theorem.1 "7" (by decide),
   claim_C2_theorem.2.1 "1a7" 'a' (by decide) (by decide),
   claim_C2_theorem.2.2.1 "1127" '2' (by decide) (by decide) (by decide)⟩

/-- Claim C10: `parse_doc_type` is invariant under surrounding whitespace, while
`parse_gender` is not: on a valid 18-digit identifier with one trailing blank the
document type is still 身份证 but the derived gender differs from that of the
stripped identifier. -/
theorem claim_C10_theorem :
    (∀ (s : String) (pre post : List Char), (∀ c ∈ pre, c.isWhitespace = true) →
      (∀ c ∈ post, c.isWhitespace = true) →
      parse_doc_type ⟨pre ++ s.data ++ post⟩ = parse_doc_type s) ∧
    parse_doc_type "110101199003077758 " = "身份证" ∧
    parse_gender "110101199003077758 " ≠ parse_gender (pyStrip "110101199003077758 ") := by
  refine ⟨parse_doc_type_pad, by decide, by decide⟩

/-- Witness instantiating the whitespace-invariance conjunct of claim C10. -/
theorem claim_C10_witness :
    parse_doc_type ⟨[' ', '\t'] ++ "G12345678".data ++ ['\n']⟩ = parse_doc_type "G12345678" :=
  claim_C10_theorem.1 "G12345678" [' ', '\t'] ['\n'] (by decide) (by decide)

/-! ### Characterization of the identifier fallback patterns (claim C6) -/

theorem digits17X_iff (l : List Char) :
    digits17X l = true ↔
      ∃ ds c, l = ds ++ [c] ∧ ds.length = 17 ∧ (∀ x ∈ ds, x.isDigit = true) ∧
        (c.isDigit = true ∨ c = 'X' ∨ c = 'x') := by
  constructor
  · intro h
    simp only [digits17X, Bool.and_eq_true, beq_iff_eq, List.all_eq_true] at h
    obtain ⟨⟨hlen, htake⟩, hdrop⟩ := h
    have hdlen : (l.drop 17).length = 1 := by
      rw [List.length_drop, hlen]
    obtain ⟨c, hc⟩ := List.length_eq_one.mp hdlen
    refine ⟨l.take 17, c, ?_, ?_, htake, ?_⟩
    · rw [← hc, List.take_append_drop]
    · rw [List.length_take, hlen]
      decide
    · have hcmem : c ∈ l.drop 17 := by rw [hc]; exact List.mem_cons_self c []
      have h3 : (c.isDigit = true ∨ c = 'X') ∨ c = 'x' := by
        simpa [isIdTail] using hdrop c hcmem
      tauto
  · rintro ⟨ds, c, rfl, hlen, hdig, htail⟩
    simp only [digits17X, Bool.and_eq_true, beq_iff_eq, List.all_eq_true]
    refine ⟨⟨?_, ?_⟩, ?_⟩
    · simp [hlen]
    · rw [List.take_left' hlen]
      exact hdig
    · rw [List.drop_left' hlen]
      intro x hx
      rw [List.mem_singleton.mp hx]
      simp only [isIdTail, Bool.or_eq_true, beq_iff_eq]
      tauto

theorem digits15_iff (l : List Char) :
    digits15 l = true ↔ l.length = 15 ∧ ∀ x ∈ l, x.isDigit = true := by
  simp [digits15, List.all_eq_true]

/-- Claim C6 (amended): the CLI-variant identifier fallback pattern matches a string
iff it is exactly 17 digits followed by one digit-or-X/x character; the streamlit
variant reuses the full national-id pattern, so its fallback additionally matches
every string of exactly 15 digits. -/
theorem claim_C6_theorem :
    (∀ s : String, matchIdTmpl s = true ↔ specIdFallback s) ∧
    (∀ s : String, matchIdApp s = true ↔ (specDigits15 s ∨ specIdFallback s)) := by
  constructor
  · intro s
    exact (digits17X_iff s.data)
  · intro s
    simp only [matchIdApp, Bool.or_eq_true, specDigits15, specIdFallback]
    rw [digits15_iff, digits17X_iff]

/-- Claim C6 counterexample: the 15-digit string "110101199003077" matches the
streamlit IdentifierNumber fallback pattern but is not 17 digits followed by a
digit-or-X/x character. -/
theorem claim_C6_counterexample :
    matchIdApp "110101199003077" = true ∧ ¬ specIdFallback "110101199003077" := by
  constructor
  · decide
  · rintro ⟨ds, c, hdc, hlen, -, -⟩
    have h15 : ("110101199003077" : String).data.length = 15 := by decide
    rw [hdc] at h15
    rw [List.length_append, hlen] at h15
    simp at h15

/-- Witness instantiating the amended claim C6 on concrete strings. -/
theorem claim_C6_witness :
    specIdFallback "11010119900307775X" ∧ ¬ matchIdTmpl "110101199003077" = true :=
  ⟨(claim_C6_theorem.1 "11010119900307775X").mp (by decide),
   fun h => by
     obtain ⟨ds, c, hdc, hlen, -, -⟩ := (claim_C6_theorem.1 "110101199003077").mp h
     have h15 : ("110101199003077" : String).data.length = 15 := by decide
     rw [hdc, List.length_append, hlen] at h15
     simp at h15⟩

/-! ### First-match characterization of `detect_column_by_pattern` (claim C7) -/

theorem detectGo_eq_some_iff (pat : String → Bool) (th : ℚ)
    (l : List (String × List (Option String))) (name : String) :
    detectGo pat th l = some name ↔
      ∃ pre c post, l = pre ++ c :: post ∧ c.1 = name ∧ colQualifies pat th c.2 = true ∧
        ∀ x ∈ pre, colQualifies pat th x.2 = false := by
  induction l with
  | nil =>
      simp [detectGo]
  | cons a t ih =>
      by_cases hq : colQualifies pat th a.2 = true
      case pos =>
        constructor
        · intro h
          have hname : a.1 = name := by
            simp only [detectGo, hq, if_true, Option.some.injEq] at h
            exact h
          exact ⟨[], a, t, rfl, hname, hq, by simp⟩
        · rintro ⟨pre, c, post, heq, hname, hcq, hpre⟩
          cases pre with
          | nil =>
              simp only [List.nil_append] at heq
              obtain ⟨rfl, rfl⟩ := List.cons.inj heq
              simp only [detectGo, hq, if_true, Option.some.injEq]
              exact hname
          | cons p pre' =>
              obtain ⟨rfl, -⟩ := List.cons.inj heq
              exact absurd hq (by simp [hpre a (List.mem_cons_self a pre')])
      case neg =>
        have hqf : colQualifies pat th a.2 = false := by
          simpa using hq
        have hstep : detectGo pat th (a :: t) = detectGo pat th t := by
          simp [detectGo, hqf]
        rw [hstep, ih]
        constructor
        · rintro ⟨pre, c, post, heq, hname, hcq, hpre⟩
          refine ⟨a :: pre, c, post, by rw [heq, List.cons_append], hname, hcq, ?_⟩
          intro x hx
          rcases List.mem_cons.mp hx with rfl | hx'
          · exact hqf
          · exact hpre x hx'
        · rintro ⟨pre, c, post, heq, hname, hcq, hpre⟩
          cases pre with
          | nil =>
              simp only [List.nil_append] at heq
              obtain ⟨rfl, rfl⟩ := List.cons.inj heq
              exact absurd hcq (by simp [hqf])
          | cons p pre' =>
              obtain ⟨rfl, ht⟩ := List.cons.inj heq
              exact ⟨pre', c, post, ht, hname, hcq,
                fun x hx => hpre x (List.mem_cons_of_mem a hx)⟩

theorem detectGo_eq_none_iff (pat : String → Bool) (th : ℚ)
    (l : List (String × List (Option String))) :
    detectGo pat th l = none ↔ ∀ c ∈ l, colQualifies pat th c.2 = false := by
  induction l with
  | nil => simp [detectGo]
  | cons a t ih =>
      by_cases hq : colQualifies pat th a.2 = true
      · simp [detectGo, hq]
      · have hqf : colQualifies pat th a.2 = false := by simpa using hq
        simp [detectGo, hqf, ih]

/-- Claim C7: `detect_column_by_pattern` visits columns in the table's native
order, skips columns with zero non-missing values (they never qualify), and
returns the first column whose fraction of non-missing matching values reaches
the threshold; it returns none exactly when no column qualifies. -/
theorem claim_C7_theorem (df : DataFrame) (pat : String → Bool) (th : ℚ) :
    (∀ name, detect_column_by_pattern df pat th = some name ↔
      ∃ pre c post, df.cols = pre ++ c :: post ∧ c.1 = name ∧
        colQualifies pat th c.2 = true ∧ ∀ x ∈ pre, colQualifies pat th x.2 = false) ∧
    (detect_column_by_pattern df pat th = none ↔
      ∀ c ∈ df.cols, colQualifies pat th c.2 = false) ∧
    (∀ cells, dropnaStr cells = [] → colQualifies pat th cells = false) ∧
    (∀ cells, colQualifies pat th cells = true ↔
      dropnaStr cells ≠ [] ∧
        th ≤ Rat.divInt ((dropnaStr cells).countP pat) ((dropnaStr cells).length)) := by
  refine ⟨fun name => detectGo_eq_some_iff pat th df.cols name,
    detectGo_eq_none_iff pat th df.cols, ?_, ?_⟩
  · intro cells h
    simp [colQualifies, h]
  · intro cells
    simp only [colQualifies]
    constructor
    · intro h
      by_cases hlen : (dropnaStr cells).length = 0
      · rw [if_pos hlen] at h
        cases h
      · rw [if_neg hlen] at h
        exact ⟨fun hnil => hlen (by rw [hnil]; rfl), of_decide_eq_true h⟩
    · rintro ⟨hne, hle⟩
      have hlen : (dropnaStr cells).length ≠ 0 := by
        intro h0
        exact hne (List.length_eq_zero.mp h0)
      rw [if_neg hlen]
      exact decide_eq_true hle

/-- Witness instantiating claim C7: the phone pattern finds the second column of a
concrete table, skipping a first column that does not qualify. -/
theorem claim_C7_witness :
    detect_column_by_pattern ⟨2, [("a", [some "x", none]), ("b", [some "13912345678", none])]⟩
      matchPhone (Rat.divInt 1 2) = some "b" :=
  ((claim_C7_theorem ⟨2, [("a", [some "x", none]), ("b", [some "13912345678", none])]⟩
      matchPhone (Rat.divInt 1 2)).1 "b").mpr
    ⟨[("a", [some "x", none])], ("b", [some "13912345678", none]), [], rfl, rfl,
      by decide, by decide⟩

/-! ### Behaviour of `reorder_columns` (claim C8) -/

theorem find?_map_name {β : Type} (f : String → β) (order : List String) (n : String) :
    ((order.map (fun m => (m, f m))).find? (fun c => c.1 == n)) =
      if n ∈ order then some (n, f n) else none := by
  induction order with
  | nil => simp
  | cons a t ih =>
      by_cases h : a = n
      · subst h
        simp
      · have hne : ¬ (fun c => c.1 == n) (a, f a) = true := by
          simp only [beq_iff_eq]
          exact h
        rw [List.map_cons,
          List.find?_cons_of_neg (List.map (fun m => (m, f m)) t) hne, ih]
        have hmem : (n ∈ a :: t) ↔ (n ∈ t) := by
          constructor
          · intro hh
            rcases List.mem_cons.mp hh with rfl | hh'
            · exact absurd rfl h
            · exact hh'
          · exact fun hh => List.mem_cons_of_mem a hh
        by_cases hm : n ∈ t
        · rw [if_pos hm, if_pos (hmem.mpr hm)]
        · rw [if_neg hm, if_neg (fun hh => hm (hmem.mp hh))]

theorem reorder_getCol? (df : DataFrame) (order : List String) (n : String) :
    getCol? (reorder_columns df order) n =
      if n ∈ order then
        some ((getCol? df n).getD (List.replicate df.nrows (some "")))
      else none := by
  show (((order.map
      (fun m => (m, (getCol? df m).getD (List.replicate df.nrows (some ""))))).find?
        (fun c => c.1 == n)).map Prod.snd) = _
  rw [find?_map_name (fun m => (getCol? df m).getD (List.replicate df.nrows (some ""))) order n]
  by_cases h : n ∈ order
  · rw [if_pos h, if_pos h]
    rfl
  · rw [if_neg h, if_neg h]
    rfl

/-- Claim C8: `reorder_columns` emits exactly the requested column sequence: a
requested name present in the source keeps its column unchanged, a requested name
absent from the source becomes an all-empty-string column of the table's row
count, and source columns not requested are dropped. -/
theorem claim_C8_theorem (df : DataFrame) (order : List String) :
    colNames (reorder_columns df order) = order ∧
    (reorder_columns df order).nrows = df.nrows ∧
    (∀ n cells, n ∈ order → getCol? df n = some cells →
      getCol? (reorder_columns df order) n = some cells) ∧
    (∀ n, n ∈ order → getCol? df n = none →
      getCol? (reorder_columns df order) n = some (List.replicate df.nrows (some ""))) ∧
    (∀ n, ¬ n ∈ order → getCol? (reorder_columns df order) n = none) := by
  refine ⟨?_, rfl, ?_, ?_, ?_⟩
  · show (order.map
        (fun n => (n, (getCol? df n).getD (List.replicate df.nrows (some ""))))).map
          Prod.fst = order
    rw [List.map_map]
    exact (List.map_congr_left (fun a _ => rfl)).trans (List.map_id order)
  · intro n cells hn hc
    rw [reorder_getCol? df order n, if_pos hn, hc]
    rfl
  · intro n hn hc
    rw [reorder_getCol? df order n, if_pos hn, hc]
    rfl
  · intro n hn
    rw [reorder_getCol? df order n, if_neg hn]

/-- Witness instantiating claim C8 on a concrete table and column order. -/
theorem claim_C8_witness :
    getCol? (reorder_columns ⟨1, [("b", [some "x"]), ("c", [some "y"])]⟩ ["a", "b"]) "b" =
        some [some "x"] ∧
      getCol? (reorder_columns ⟨1, [("b", [some "x"]), ("c", [some "y"])]⟩ ["a", "b"]) "a" =
        some (List.replicate 1 (some "")) ∧
      getCol? (reorder_columns ⟨1, [("b", [some "x"]), ("c", [some "y"])]⟩ ["a", "b"]) "c" =
        none :=
  ⟨(claim_C8_theorem ⟨1, [("b", [some "x"]), ("c", [some "y"])]⟩ ["a", "b"]).2.2.1 "b"
      [some "x"] (by decide) (by decide),
   (claim_C8_theorem ⟨1, [("b", [some "x"]), ("c", [some "y"])]⟩ ["a", "b"]).2.2.2.1 "a"
      (by decide) (by decide),
   (claim_C8_theorem ⟨1, [("b", [some "x"]), ("c", [some "y"])]⟩ ["a", "b"]).2.2.2.2 "c"
      (by decide)⟩

/-- Claim C3: `partitionByGender` sends exactly the rows with derived gender 男 to
the male table and exactly the rows with 女 to the female table (multiplicity
preserved), both in original order (sublists of the input); the outputs are
disjoint and rows with unresolved gender appear in neither. -/
theorem claim_C3_theorem (t : List Record) :
    ((partitionByGender t).1.Sublist t) ∧ ((partitionByGender t).2.Sublist t) ∧
    (∀ r : Record, List.count r (partitionByGender t).1 =
      if r.gender = "男" then List.count r t else 0) ∧
    (∀ r : Record, List.count r (partitionByGender t).2 =
      if r.gender = "女" then List.count r t else 0) ∧
    (∀ r : Record, r ∈ (partitionByGender t).1 → ¬ r ∈ (partitionByGender t).2) ∧
    (∀ r : Record, r.gender = "" →
      ¬ r ∈ (partitionByGender t).1 ∧ ¬ r ∈ (partitionByGender t).2) := by
  refine ⟨List.filter_sublist t, List.filter_sublist t, ?_, ?_, ?_, ?_⟩
  · intro r
    by_cases h : r.gender = "男"
    · rw [if_pos h]
      exact List.count_filter (by simp [h])
    · rw [if_neg h]
      rw [List.count_eq_zero]
      intro hmem
      exact h (by simpa using (List.mem_filter.mp hmem).2)
  · intro r
    by_cases h : r.gender = "女"
    · rw [if_pos h]
      exact List.count_filter (by simp [h])
    · rw [if_neg h]
      rw [List.count_eq_zero]
      intro hmem
      exact h (by simpa using (List.mem_filter.mp hmem).2)
  · intro r h1 h2
    have g1 : r.gender = "男" := by simpa using (List.mem_filter.mp h1).2
    have g2 : r.gender = "女" := by simpa using (List.mem_filter.mp h2).2
    exact absurd (g1 ▸ g2) (by decide)
  · intro r hg
    constructor <;> intro hmem
    · have g : r.gender = "男" := by simpa using (List.mem_filter.mp hmem).2
      rw [hg] at g
      exact absurd g (by decide)
    · have g : r.gender = "女" := by simpa using (List.mem_filter.mp hmem).2
      rw [hg] at g
      exact absurd g (by decide)

/-- Witness instantiating claim C3 on a one-row table: the male row is not in the
female output, and an unresolved row is in neither. -/
theorem claim_C3_witness :
    ¬ (⟨"a", "x", "", "", "", "", "男"⟩ : Record) ∈
        (partitionByGender [⟨"a", "x", "", "", "", "", "男"⟩]).2 ∧
      ¬ (⟨"b", "y", "", "", "", "", ""⟩ : Record) ∈
        (partitionByGender [⟨"b", "y", "", "", "", "", ""⟩]).1 :=
  ⟨( claim_C3_theorem [⟨"a", "x", "", "", "", "", "男"⟩]).2.2.2.2.1
      ⟨"a", "x", "", "", "", "", "男"⟩ (by decide),
   (( claim_C3_theorem [⟨"b", "y", "", "", "", "", ""⟩]).2.2.2.2.2
      ⟨"b", "y", "", "", "", "", ""⟩ rfl).1⟩

/-! ### Row preservation of the extraction pipelines (claim C4) -/

theorem cons_of_length_succ {α : Type} (l : List α) (n : Nat) (h : l.length = n + 1) :
    ∃ x t, l = x :: t ∧ t.length = n := by
  cases l with
  | nil => simp at h
  | cons x t => exact ⟨x, t, rfl, by simpa using h⟩

theorem zipRecords_spec (n : Nat) :
    ∀ as bs cs ds es fs gs : List String, as.length = n → bs.length = n → cs.length = n →
      ds.length = n → es.length = n → fs.length = n → gs.length = n →
      (zipRecords as bs cs ds es fs gs).length = n ∧
      ∀ i, i < n → (zipRecords as bs cs ds es fs gs).get? i =
        some ⟨as.getD i "", bs.getD i "", cs.getD i "", ds.getD i "", es.getD i "",
          fs.getD i "", gs.getD i ""⟩ := by
  induction n with
  | zero =>
      intro as bs cs ds es fs gs ha hb hc hd he hf hg
      rw [List.length_eq_zero] at ha hb hc hd he hf hg
      subst ha hb hc hd he hf hg
      exact ⟨rfl, fun i hi => absurd hi (by omega)⟩
  | succ n ih =>
      intro as bs cs ds es fs gs ha hb hc hd he hf hg
      obtain ⟨a, as', rfl, ha'⟩ := cons_of_length_succ as n ha
      obtain ⟨b, bs', rfl, hb'⟩ := cons_of_length_succ bs n hb
      obtain ⟨c, cs', rfl, hc'⟩ := cons_of_length_succ cs n hc
      obtain ⟨d, ds', rfl, hd'⟩ := cons_of_length_succ ds n hd
      obtain ⟨e, es', rfl, he'⟩ := cons_of_length_succ es n he
      obtain ⟨f, fs', rfl, hf'⟩ := cons_of_length_succ fs n hf
      obtain ⟨g, gs', rfl, hg'⟩ := cons_of_length_succ gs n hg
      obtain ⟨ihlen, ihget⟩ := ih as' bs' cs' ds' es' fs' gs' ha' hb' hc' hd' he' hf' hg'
      constructor
      · simpa [zipRecords] using ihlen
      · intro i hi
        cases i with
        | zero => simp [zipRecords]
        | succ j =>
            simpa [zipRecords] using ihget j (by omega)

theorem getCol_length_of_mem (df : DataFrame) (h : df.WF) {n : String}
    (hm : ∃ p ∈ df.cols, p.1 = n) : (getCol df n).length = df.nrows := by
  have hsome : (df.cols.find? (fun c => c.1 == n)).isSome := by
    rw [List.find?_isSome]
    obtain ⟨p, hp, he⟩ := hm
    exact ⟨p, hp, by simp [he]⟩
  obtain ⟨p, hp⟩ := Option.isSome_iff_exists.mp hsome
  have hmem : p ∈ df.cols := List.mem_of_find?_eq_some hp
  simp only [getCol, getCol?, hp, Option.map_some', Option.getD_some]
  exact h p hmem

theorem astypeStr_length (cells : List (Option String)) :
    (astypeStr cells).length = cells.length := by
  simp [astypeStr]

theorem seriesFor_length (df : DataFrame) (h : df.WF) (aliases : List String) :
    (seriesFor df aliases).length = df.nrows := by
  unfold seriesFor
  cases hfind : aliases.find? (fun a => df.cols.any (fun c => c.1 == a)) with
  | none => simp
  | some a =>
      have hp : (df.cols.any (fun c => c.1 == a)) = true :=
        @List.find?_some String (fun x => df.cols.any (fun c => c.1 == x)) a aliases hfind
      rw [List.any_eq_true] at hp
      obtain ⟨p, hpmem, hpe⟩ := hp
      rw [astypeStr_length]
      exact getCol_length_of_mem df h ⟨p, hpmem, by simpa using hpe⟩

theorem detect_mem (df : DataFrame) (pat : String → Bool) (th : ℚ) (c : String)
    (h : detect_column_by_pattern df pat th = some c) : ∃ p ∈ df.cols, p.1 = c := by
  obtain ⟨pre, p, post, heq, hname, -, -⟩ := (detectGo_eq_some_iff pat th df.cols c).mp h
  refine ⟨p, ?_, hname⟩
  rw [heq]
  exact List.mem_append_right pre (List.mem_cons_self p post)

theorem withFallback_length (df : DataFrame) (h : df.WF) (cur : List String)
    (pat : String → Bool) (hc : cur.length = df.nrows) :
    (withFallback df cur pat).length = df.nrows := by
  unfold withFallback
  by_cases hall : (cur.all (fun v => v == "")) = true
  · rw [if_pos hall]
    cases hdet : detect_column_by_pattern df pat (Rat.divInt 1 2) with
    | none => exact hc
    | some c =>
        show (if (c == "") = true then cur else astypeStr (getCol df c)).length = df.nrows
        by_cases hce : (c == "") = true
        · rw [if_pos hce]
          exact hc
        · rw [if_neg hce, astypeStr_length]
          exact getCol_length_of_mem df h (detect_mem df pat (Rat.divInt 1 2) c hdet)
  · rw [if_neg hall]
    exact hc

theorem dropGenderCols_WF (df : DataFrame) (h : df.WF) : (dropGenderCols df).WF := by
  intro c hc
  exact h c (List.mem_of_mem_filter hc)

theorem dropGenderCols_nrows (df : DataFrame) : (dropGenderCols df).nrows = df.nrows := rfl

theorem zipRecords5_spec (n : Nat) :
    ∀ as bs cs ds es : List String, as.length = n → bs.length = n → cs.length = n →
      ds.length = n → es.length = n →
      (Tmpl.zipRecords as bs cs ds es).length = n ∧
      ∀ i, i < n → (Tmpl.zipRecords as bs cs ds es).get? i =
        some ⟨as.getD i "", bs.getD i "", cs.getD i "", ds.getD i "", es.getD i ""⟩ := by
  induction n with
  | zero =>
      intro as bs cs ds es ha hb hc hd he
      rw [List.length_eq_zero] at ha hb hc hd he
      subst ha hb hc hd he
      exact ⟨rfl, fun i hi => absurd hi (by omega)⟩
  | succ n ih =>
      intro as bs cs ds es ha hb hc hd he
      obtain ⟨a, as', rfl, ha'⟩ := cons_of_length_succ as n ha
      obtain ⟨b, bs', rfl, hb'⟩ := cons_of_length_succ bs n hb
      obtain ⟨c, cs', rfl, hc'⟩ := cons_of_length_succ cs n hc
      obtain ⟨d, ds', rfl, hd'⟩ := cons_of_length_succ ds n hd
      obtain ⟨e, es', rfl, he'⟩ := cons_of_length_succ es n he
      obtain ⟨ihlen, ihget⟩ := ih as' bs' cs' ds' es' ha' hb' hc' hd' he'
      constructor
      · simpa [Tmpl.zipRecords] using ihlen
      · intro i hi
        cases i with
        | zero => simp [Tmpl.zipRecords]
        | succ j =>
            simpa [Tmpl.zipRecords] using ihget j (by omega)

/-- Claim C4: for any well-formed source table, both extraction variants produce a
canonical table with exactly one record per source row, in source order: record `i`
is built from position `i` of each resolved series, so no row is dropped,
duplicated or reordered. -/
theorem claim_C4_theorem (df0 : DataFrame) (h : df0.WF) :
    ((extract_fields df0).length = df0.nrows ∧
      ∀ i, i < df0.nrows → (extract_fields df0).get? i =
        some ⟨(resolvedName (dropGenderCols df0)).getD i "",
          (resolvedId (dropGenderCols df0)).getD i "",
          (resolvedPhone (dropGenderCols df0)).getD i "",
          (seriesFor (dropGenderCols df0) orgAliases).getD i "",
          (seriesFor (dropGenderCols df0) cardAliases).getD i "",
          ((resolvedId (dropGenderCols df0)).map parse_doc_type).getD i "",
          ((resolvedId (dropGenderCols df0)).map parse_gender).getD i ""⟩) ∧
    ((Tmpl.extract_fields df0).length = df0.nrows ∧
      ∀ i, i < df0.nrows → (Tmpl.extract_fields df0).get? i =
        some ⟨(Tmpl.resolvedName df0).getD i "", (Tmpl.resolvedId df0).getD i "",
          (Tmpl.resolvedPhone df0).getD i "",
          ((Tmpl.resolvedId df0).map parse_doc_type).getD i "",
          ((Tmpl.resolvedId df0).map parse_gender).getD i ""⟩) := by
  have hwf : (dropGenderCols df0).WF := dropGenderCols_WF df0 h
  have hnr : (dropGenderCols df0).nrows = df0.nrows := rfl
  have l1 : (resolvedName (dropGenderCols df0)).length = df0.nrows := by
    rw [← hnr]
    exact withFallback_length _ hwf _ _ (seriesFor_length _ hwf nameAliases)
  have l2 : (resolvedId (dropGenderCols df0)).length = df0.nrows := by
    rw [← hnr]
    exact withFallback_length _ hwf _ _ (seriesFor_length _ hwf idAliases)
  have l3 : (resolvedPhone (dropGenderCols df0)).length = df0.nrows := by
    rw [← hnr]
    exact withFallback_length _ hwf _ _ (seriesFor_length _ hwf phoneAliases)
  have l4 : (seriesFor (dropGenderCols df0) orgAliases).length = df0.nrows :=
    seriesFor_length _ hwf orgAliases
  have l5 : (seriesFor (dropGenderCols df0) cardAliases).length = df0.nrows :=
    seriesFor_length _ hwf cardAliases
  have l6 : ((resolvedId (dropGenderCols df0)).map parse_doc_type).length = df0.nrows := by
    rw [List.length_map]
    exact l2
  have l7 : ((resolvedId (dropGenderCols df0)).map parse_gender).length = df0.nrows := by
    rw [List.length_map]
    exact l2
  have m1 : (Tmpl.resolvedName df0).length = df0.nrows :=
    withFallback_length _ h _ _ (seriesFor_length _ h Tmpl.nameAliases)
  have m2 : (Tmpl.resolvedId df0).length = df0.nrows :=
    withFallback_length _ h _ _ (seriesFor_length _ h Tmpl.idAliases)
  have m3 : (Tmpl.resolvedPhone df0).length = df0.nrows :=
    withFallback_length _ h _ _ (seriesFor_length _ h Tmpl.phoneAliases)
  have m4 : ((Tmpl.resolvedId df0).map parse_doc_type).length = df0.nrows := by
    rw [List.length_map]
    exact m2
  have m5 : ((Tmpl.resolvedId df0).map parse_gender).length = df0.nrows := by
    rw [List.length_map]
    exact m2
  exact ⟨zipRecords_spec df0.nrows _ _ _ _ _ _ _ l1 l2 l3 l4 l5 l6 l7,
    zipRecords5_spec df0.nrows _ _ _ _ _ m1 m2 m3 m4 m5⟩

/-- Witness instantiating claim C4 on a concrete two-row table. -/
theorem claim_C4_witness :
    (extract_fields dfMissingCell).length = dfMissingCell.nrows ∧
      (Tmpl.extract_fields dfMissingCell).length = dfMissingCell.nrows :=
  ⟨(claim_C4_theorem dfMissingCell (by decide)).1.1,
   (claim_C4_theorem dfMissingCell (by decide)).2.1⟩

/-! ### Independence from a pre-existing 性别 column (claim C5) -/

theorem filter_drop_gender_eq_of_agree :
    ∀ l1 l2 : List (String × List (Option String)),
      l1.map Prod.fst = l2.map Prod.fst →
      ((l1.zip l2).all fun p => (pyStrip p.1.1 == "性别") || p.1.2 == p.2.2) = true →
      l1.filter (fun c => !(pyStrip c.1 == "性别")) =
        l2.filter (fun c => !(pyStrip c.1 == "性别")) := by
  intro l1
  induction l1 with
  | nil =>
      intro l2 hmap hall
      have : l2 = [] := by
        cases l2 with
        | nil => rfl
        | cons b t2 => simp at hmap
      rw [this]
  | cons a t1 ih =>
      intro l2 hmap hall
      cases l2 with
      | nil => simp at hmap
      | cons b t2 =>
          simp only [List.map_cons, List.cons.injEq] at hmap
          obtain ⟨hname, hmap'⟩ := hmap
          simp only [List.zip_cons_cons, List.all_cons, Bool.and_eq_true] at hall
          obtain ⟨hhead, htail⟩ := hall
          by_cases hg : (pyStrip a.1 == "性别") = true
          · have hgb : (pyStrip b.1 == "性别") = true := by rw [← hname]; exact hg
            rw [List.filter_cons, List.filter_cons]
            simp only [hg, hgb, Bool.not_true, Bool.false_eq_true, if_false]
            exact ih t2 hmap' htail
          · have hgf : (pyStrip a.1 == "性别") = false := by simpa using hg
            have hgb : (pyStrip b.1 == "性别") = false := by rw [← hname]; exact hgf
            have hcells : a.2 = b.2 := by
              rw [hgf] at hhead
              simpa using hhead
            have hab : a = b := Prod.ext hname hcells
            rw [List.filter_cons, List.filter_cons]
            simp only [hgf, hgb, Bool.not_false, if_true]
            rw [hab, ih t2 hmap' htail]

/-- Claim C5 (amended, streamlit variant): the streamlit `extract_fields` drops
every column whose stripped name is 性别 before any resolution, so two source
tables that agree on everything except the contents of 性别 columns produce
identical canonical tables; its derived 证件类型 and 性别 columns are computed
from the resolved 证件号 series alone. -/
theorem claim_C5_theorem (df1 df2 : DataFrame) (h : agreeExceptGender df1 df2 = true) :
    extract_fields df1 = extract_fields df2 := by
  simp only [agreeExceptGender, Bool.and_eq_true, beq_iff_eq] at h
  obtain ⟨⟨hn, hc⟩, hall⟩ := h
  have hdrop : dropGenderCols df1 = dropGenderCols df2 := by
    unfold dropGenderCols
    rw [hn, filter_drop_gender_eq_of_agree df1.cols df2.cols hc hall]
  simp only [extract_fields, hdrop]

/-- Claim C5 counterexample (CLI variant): two tables agreeing on everything except
a pre-existing 性别 column give different canonical tables under the CLI-variant
`extract_fields`, because its 姓名 pattern fallback reads the 性别 column. -/
theorem claim_C5_counterexample :
    agreeExceptGender dfGenderA dfGenderB = true ∧
      Tmpl.extract_fields dfGenderA ≠ Tmpl.extract_fields dfGenderB := by
  constructor
  · decide
  · decide

/-- Witness instantiating the amended claim C5 on the two concrete tables. -/
theorem claim_C5_witness : extract_fields dfGenderA = extract_fields dfGenderB :=
  claim_C5_theorem dfGenderA dfGenderB (by decide)

/-- Claim C9 evaluation: a missing 证件号 cell in a name-resolved column comes out
as the literal string "nan", not the empty string, and an entirely-missing
name-resolved 证件号 column does not trigger the pattern fallback (the 编号 column
of `dfAllMissing` fully matches the fallback pattern yet is ignored), contradicting
the claim. -/
theorem claim_C9_theorem :
    extract_fields dfMissingCell =
      [⟨"", "110101199003077758", "", "", "", "身份证", "男"⟩,
       ⟨"", "nan", "", "", "", "", ""⟩] ∧
    extract_fields dfAllMissing = [⟨"", "nan", "", "", "", "", ""⟩] ∧
    matchIdApp "11010119900307775X" = true ∧
    ("nan" : String) ≠ "" := by
  exact ⟨by decide, by decide, by decide, by decide⟩
